import Mathlib

/-!
Verification of the orchestration core of `src/rayleigh_benard_2d.py`:
the random-field initializer, the CFL step-size controller, the
time-marching main loop with its try/except/finally structure, and the
rank-0 statistics report.  Real numbers of the script are embedded as
rationals; the external dedalus collaborators (solver, CFL helper,
field scale changes) are modelled from the spec where their code is not
part of this repository.
-/

namespace RB

/-! ### Step-size controller configuration (src lines 121, 129-133) -/

/-- src line 129: `max_dt = 0.5`. -/
def max_dt : ℚ := 1/2

/-- src line 131: `safety=0.8/2`. -/
def safety : ℚ := 8/10/2

/-- src line 132: `max_change=1.5`. -/
def max_change : ℚ := 3/2

/-- src line 132: `min_change=0.5`. -/
def min_change : ℚ := 1/2

/-- src line 132: `threshold=0.05`. -/
def threshold : ℚ := 1/20

/-- src line 131: `cadence=1`. -/
def cadence : Nat := 1

/-- src line 121: `dt = 1e-3`, the initial timestep handed to the CFL helper. -/
def initial_dt : ℚ := 1/1000

/-- Clipping a value into an interval. -/
def clip (lo hi x : ℚ) : ℚ :=
  if x < lo then lo else if hi < x then hi else x

/-- Modelled from the spec (dedalus `flow_tools.CFL` is an external
collaborator, its code is not in this repository): the raw candidate is
`safety / global_max_ratio`, or the absolute maximum step when the
global max ratio is zero.  `speedMax` is the result of the global
maximum reduction of wave-speed-to-grid-spacing over all workers. -/
def raw_dt (speedMax : ℚ) : ℚ :=
  if speedMax = 0 then max_dt else safety / speedMax

/-- Modelled from the spec: the raw candidate clipped to `[0, max_dt]`
and then rate-limited into `[min_change * prev, max_change * prev]`. -/
def rateLimited (speedMax prev : ℚ) : ℚ :=
  clip (min_change * prev) (max_change * prev) (clip 0 max_dt (raw_dt speedMax))

/-- Modelled from the spec: the threshold gate keeps the previous step
size when the relative change of the rate-limited candidate is below
`threshold` (the two-sided comparison states the absolute value of the
change multiplicatively, avoiding the division by `prev`). -/
def thresholdGated (speedMax prev : ℚ) : Bool :=
  decide (rateLimited speedMax prev - prev < threshold * prev) &&
  decide (prev - rateLimited speedMax prev < threshold * prev)

/-- Modelled from the spec: one controller computation — cadence gate,
then threshold gate, otherwise the rate-limited candidate. -/
def compute_dt (iteration : Nat) (speedMax prev : ℚ) : ℚ :=
  if iteration % cadence = 0 then
    if thresholdGated speedMax prev then prev else rateLimited speedMax prev
  else prev

/-- The controller actually updates: not gated by cadence and not gated
by the relative-change threshold. -/
def cflUpdates (iteration : Nat) (speedMax prev : ℚ) : Prop :=
  iteration % cadence = 0 ∧ thresholdGated speedMax prev = false

/-! ### Stop thresholds (src lines 123-127) -/

structure StopConfig where
  stop_sim_time : ℚ
  stop_wall_time : ℚ
  stop_iteration : Nat
deriving DecidableEq

/-- src lines 123-127: the three stop thresholds as a function of the
whole recognized configuration surface (`--nz`, `--nx`, `--aspect`,
`--Rayleigh`, `--niter`).  `niter = int(float(args),)+1` feeds
`solver.stop_iteration`; `stop_sim_time = 50`; `stop_wall_time = 30*60`. -/
def stopConfig (nzArg nxArg aspectArg : Nat) (RayleighArg : ℚ) (niterArg : Nat) : StopConfig :=
  { stop_sim_time := 50
    stop_wall_time := 30 * 60
    stop_iteration := niterArg + 1 }

/-! ### Random field initializer (src lines 103-112) -/

structure Shape2 where
  nx : Nat
  nz : Nat
deriving DecidableEq

/-- Canonical (C-order) linear position of global index `(i, j)`. -/
def canonIndex (g : Shape2) (i j : Nat) : Nat := i * g.nz + j

/-- src lines 106-107: `rand.standard_normal(gshape)` — the value of the
global random array at global index `(i, j)`.  numpy's generator is an
external library; it is modelled as an arbitrary deterministic function
`gen` of the seed and the canonical linear position, which is exactly
the interface the script relies on. -/
def standard_normal (gen : Nat → Nat → ℚ) (seed : Nat) (g : Shape2) (i j : Nat) : ℚ :=
  gen seed (canonIndex g i j)

/-- One worker's local index range (half-open in each dimension), the
`slices` of src line 105. -/
structure Slice2 where
  x0 : Nat
  xlen : Nat
  z0 : Nat
  zlen : Nat
deriving DecidableEq

def inSlice (sl : Slice2) (i j : Nat) : Bool :=
  decide (sl.x0 ≤ i) && decide (i < sl.x0 + sl.xlen) &&
  decide (sl.z0 ≤ j) && decide (j < sl.z0 + sl.zlen)

/-- src line 107: `noise = rand.standard_normal(gshape)[slices]` — the
worker generates the full global array and slices its local range; local
coordinates `(li, lj)` address global index `(x0+li, z0+lj)`. -/
def noiseLocal (gen : Nat → Nat → ℚ) (seed : Nat) (g : Shape2) (sl : Slice2)
    (li lj : Nat) : ℚ :=
  standard_normal gen seed g (sl.x0 + li) (sl.z0 + lj)

/-- A list of worker slices is a valid partitioning when every global
index is covered by some worker (the spec's partition invariant). -/
def covers (P : List Slice2) (g : Shape2) : Prop :=
  ∀ i < g.nx, ∀ j < g.nz, ∃ sl ∈ P, inSlice sl i j = true

instance coversDecidable (P : List Slice2) (g : Shape2) : Decidable (covers P g) := by
  unfold covers
  infer_instance

/-- The globally assembled field: the value at global index `(i, j)`
read from (the first) worker slice owning that index. -/
def assemble (gen : Nat → Nat → ℚ) (seed : Nat) (g : Shape2) (P : List Slice2)
    (i j : Nat) : ℚ :=
  match P.find? (fun sl => inSlice sl i j) with
  | some sl => noiseLocal gen seed g sl (i - sl.x0) (j - sl.z0)
  | none => 0

/-! ### Boundary-damping envelope (src lines 109-112) -/

/-- src line 110: `zb, zt = z_basis.interval` with the Chebyshev basis
built on `(0, Lz)` and `Lz = 1` (src lines 51, 57). -/
def zb : ℚ := 0

def zt : ℚ := 1

/-- src line 75: `F = 1`. -/
def F : ℚ := 1

/-- src line 111: `pert = 1e-3 * noise * (zt - z) * (z - zb)`. -/
def pert (noise z : ℚ) : ℚ := (1/1000) * noise * (zt - z) * (z - zb)

/-- src line 112: the initial temperature field in grid space,
`T['g'] = F * pert`, as a function of the wall-normal coordinate `z`. -/
def T_init (gen : Nat → Nat → ℚ) (seed : Nat) (g : Shape2) (i j : Nat) (z : ℚ) : ℚ :=
  F * pert (standard_normal gen seed g i j) z

/-! ### Field scale changes (src lines 113-118) -/

/-- Modelled from the spec: dedalus `set_scales(s, keep_data=True)`
followed by a coefficient-space access is external solver code; per the
spec's coefficient-space-truncation description, the field's coefficient
data at the new effective length `m` is the old data truncated to the
coarser length, or zero-padded up to the finer length. -/
def setScaleCoeffs (m : Nat) (c : List ℚ) : List ℚ :=
  if m ≤ c.length then c.take m else c ++ List.replicate (m - c.length) 0

/-- src lines 115-118: `T.set_scales(1/4, keep_data=True)` then back to
scale 1 — a round trip through coarser effective length `m` and back to
the original length. -/
def roundTrip (m : Nat) (c : List ℚ) : List ℚ :=
  setScaleCoeffs c.length (setScaleCoeffs m c)

/-! ### Main loop (src lines 136-149) -/

inductive SolveErr where
  | nonFinite
  | solverFail
deriving DecidableEq

/-- The external collaborators of one run: the CFL helper's global
maximum reduction result per iteration (an `error` models non-finite
velocities), the solver's advance operation returning the actually-used
step size (an `error` models an unrecoverable solver failure), and the
wall clock read at each iteration boundary. -/
structure Ext where
  speedMax : Nat → Except SolveErr ℚ
  stepActual : Nat → ℚ → Except SolveErr ℚ
  wall : Nat → ℚ

/-- The mutable state of the main loop: the solver's iteration counter
and simulation time, the CFL helper's internally stored step size, the
`first_loop` flag and `start_time` of src lines 138, 144-146, and the
per-iteration informational records (iteration, sim time, dt) of src
line 142. -/
structure LoopSt where
  iteration : Nat
  sim_time : ℚ
  cfl_prev : ℚ
  first_loop : Bool
  start_time : Option ℚ
  log : List (Nat × ℚ × ℚ)
deriving DecidableEq

def initSt : LoopSt :=
  { iteration := 0
    sim_time := 0
    cfl_prev := initial_dt
    first_loop := true
    start_time := none
    log := [] }

/-- One successful iteration body after the solver returned `act` for
requested step `store`-vs-`act` bookkeeping: the solver increments its
iteration and advances sim time by the actually-used `act`, the log
record (src line 142) uses the returned `act`, the controller stores
`store` as its previous step size, and `start_time` is taken at the end
of the first completed iteration (src lines 144-146). -/
def advance (ext : Ext) (st : LoopSt) (store act : ℚ) : LoopSt :=
  { iteration := st.iteration + 1
    sim_time := st.sim_time + act
    cfl_prev := store
    first_loop := false
    start_time := if st.first_loop then some (ext.wall (st.iteration + 1)) else st.start_time
    log := st.log ++ [(st.iteration + 1, st.sim_time + act, act)] }

/-- src lines 140-146: `dt = CFL.compute_dt(); dt = solver.step(dt)` and
the bookkeeping.  `CFL.compute_dt()` takes no argument: the controller
computes from its internally stored previous step size and stores the
value it computed (the requested one). -/
def loopBody (ext : Ext) (st : LoopSt) : Except SolveErr LoopSt :=
  match ext.speedMax st.iteration with
  | .error e => .error e
  | .ok s =>
    match ext.stepActual st.iteration (compute_dt st.iteration s st.cfl_prev) with
    | .error e => .error e
    | .ok act => .ok (advance ext st (compute_dt st.iteration s st.cfl_prev) act)

/-- Modelled from the spec (§4.3/§9 wording of the claim): the variant
loop body in which the step size actually used, as returned by the
solver's advance operation, is fed back as the controller's previous
step size for its next rate-limit computation. -/
def loopBodySpecFB (ext : Ext) (st : LoopSt) : Except SolveErr LoopSt :=
  match ext.speedMax st.iteration with
  | .error e => .error e
  | .ok s =>
    match ext.stepActual st.iteration (compute_dt st.iteration s st.cfl_prev) with
    | .error e => .error e
    | .ok act => .ok (advance ext st act act)

inductive Outcome where
  | normal
  | failed (e : SolveErr)
  | hung
deriving DecidableEq

/-- Modelled from the spec: the solver's `ok` predicate (src line 139)
is true while all three stop thresholds are strictly below their
configured maxima. -/
def solverOk (cfg : StopConfig) (ext : Ext) (st : LoopSt) : Bool :=
  decide (st.iteration < cfg.stop_iteration) &&
  decide (st.sim_time < cfg.stop_sim_time) &&
  decide (ext.wall st.iteration < cfg.stop_wall_time)

/-- The `while solver.ok` loop, fuel-indexed (`.hung` is the fuel-out
artifact; `runMainLoop` supplies fuel strictly larger than the iteration
stop threshold, which the loop can never exhaust since every body
increments the iteration counter). -/
def runLoopAux (cfg : StopConfig) (ext : Ext)
    (body : Ext → LoopSt → Except SolveErr LoopSt) :
    Nat → LoopSt → LoopSt × Outcome
  | 0, st => (st, .hung)
  | fuel + 1, st =>
    if solverOk cfg ext st then
      match body ext st with
      | .error e => (st, .failed e)
      | .ok st' => runLoopAux cfg ext body fuel st'
    else (st, .normal)

/-- src lines 136-146: the main loop as written (controller stores its
own computed step size). -/
def runMainLoop (cfg : StopConfig) (ext : Ext) : LoopSt × Outcome :=
  runLoopAux cfg ext loopBody (cfg.stop_iteration + 1) initSt

/-- The main loop under the spec-worded feedback contract (returned step
size fed back to the controller). -/
def runMainLoopSpecFB (cfg : StopConfig) (ext : Ext) : LoopSt × Outcome :=
  runLoopAux cfg ext loopBodySpecFB (cfg.stop_iteration + 1) initSt

/-! ### Statistics report (src lines 150-180) -/

inductive PyErr where
  | zeroDivision
  | nameErr
deriving DecidableEq

/-- Python division: raises ZeroDivisionError on a zero denominator. -/
def pydiv (a b : ℚ) : Except PyErr ℚ :=
  if b = 0 then .error .zeroDivision else .ok (a / b)

structure Report where
  startup_time : ℚ
  main_loop_time : ℚ
  total_time : ℚ
  iterations : Nat
  loop_sec_iter : ℚ
  average_dt : ℚ
  n_total_cpu : Nat
  sc_nx : Nat
  sc_nz : Nat
  sc_startup : ℚ
  sc_main : ℚ
  sc_per_iter : ℚ
  sc_per_iter_grid : ℚ
  sc_cost : ℚ
deriving DecidableEq

/-- src lines 160-179: the rank-0 statistics block, with each printed
division performed in program order (`loop sec/iter` divides by
`solver.iteration`; `average dt` and the scaling fields divide by
`n_steps = solver.iteration - 1`, a Python int that may be zero or
negative; the grid divisions use `nx*nz`). -/
def report (ncpu nx nz : Nat) (initial_time start_time end_time : ℚ)
    (iteration : Nat) (sim_time : ℚ) : Except PyErr Report :=
  let total_time := end_time - initial_time
  let main_loop_time := end_time - start_time
  let startup_time := start_time - initial_time
  let n_steps : ℤ := (iteration : ℤ) - 1
  match pydiv main_loop_time (iteration : ℚ) with
  | .error e => .error e
  | .ok lsi =>
    match pydiv sim_time (n_steps : ℚ) with
    | .error e => .error e
    | .ok avg =>
      match pydiv main_loop_time (n_steps : ℚ) with
      | .error e => .error e
      | .ok spi =>
        match pydiv spi ((nx * nz : ℕ) : ℚ) with
        | .error e => .error e
        | .ok spig =>
          match pydiv ((ncpu : ℚ) * main_loop_time) (n_steps : ℚ) with
          | .error e => .error e
          | .ok sc1 =>
            match pydiv sc1 ((nx * nz : ℕ) : ℚ) with
            | .error e => .error e
            | .ok scc =>
              .ok { startup_time := startup_time
                    main_loop_time := main_loop_time
                    total_time := total_time
                    iterations := iteration
                    loop_sec_iter := lsi
                    average_dt := avg
                    n_total_cpu := ncpu
                    sc_nx := nx
                    sc_nz := nz
                    sc_startup := startup_time
                    sc_main := main_loop_time
                    sc_per_iter := spi
                    sc_per_iter_grid := spig
                    sc_cost := scc }

inductive ScriptErr where
  | fromLoop (e : SolveErr)
  | fromFinally (e : PyErr)
deriving DecidableEq

/-- src lines 150-180: the `finally` block.  Line 154 evaluates
`end_time - start_time` before any rank check; when the loop failed
before completing its first iteration, `start_time` was never assigned
and the block itself raises NameError.  Otherwise rank 0 runs the
statistics block and every other rank prints nothing. -/
def finallyBlock (rank ncpu nx nz : Nat) (initial_time end_time : ℚ)
    (st : LoopSt) : Except PyErr (Option Report) :=
  match st.start_time with
  | none => .error .nameErr
  | some t0 =>
    if rank = 0 then
      match report ncpu nx nz initial_time t0 end_time st.iteration st.sim_time with
      | .error e => .error e
      | .ok r => .ok (some r)
    else .ok none

/-- src lines 136-180: the whole try/except/finally.  The except clause
only logs and re-raises; the finally block always runs; per Python
semantics an exception raised inside the finally block replaces the
in-flight loop exception, and otherwise the loop failure (if any) is
re-raised after the finally block completes. -/
def runScript (rank ncpu nx nz : Nat) (cfg : StopConfig) (ext : Ext)
    (initial_time : ℚ) : Except ScriptErr (LoopSt × Option Report) :=
  let res := runMainLoop cfg ext
  let st := res.1
  let end_time := ext.wall st.iteration
  match finallyBlock rank ncpu nx nz initial_time end_time st with
  | .error pe => .error (.fromFinally pe)
  | .ok rep =>
    match res.2 with
    | .failed e => .error (.fromLoop e)
    | _ => .ok (st, rep)

/-! ### Concrete instances used by closed theorems -/

/-- A run whose solver advance fails on the very first iteration. -/
def extC1 : Ext :=
  { speedMax := fun _ => .ok 1
    stepActual := fun k q => if k = 0 then .error .solverFail else .ok q
    wall := fun _ => 7 }

def cfgC1 : StopConfig := stopConfig 128 256 2 1000000 100

/-- A solver that always halves the requested step size (the Solver
contract allows further clipping), with benign velocities and clock. -/
def ext6 : Ext :=
  { speedMax := fun _ => .ok 1
    stepActual := fun _ q => .ok (q / 2)
    wall := fun _ => 0 }

def cfg6 : StopConfig := stopConfig 32 64 2 1000000 1

/-- A benign run: constant unit speed maximum, solver uses a fixed small
step, clock pinned at zero. -/
def extW : Ext :=
  { speedMax := fun _ => .ok 1
    stepActual := fun _ _ => .ok (1/100)
    wall := fun _ => 0 }

def genW : Nat → Nat → ℚ := fun s k => (s : ℚ) + (k : ℚ)

def gW : Shape2 := { nx := 4, nz := 2 }

def P1W : List Slice2 := [{ x0 := 0, xlen := 4, z0 := 0, zlen := 2 }]

def P2W : List Slice2 :=
  [{ x0 := 0, xlen := 2, z0 := 0, zlen := 2 },
   { x0 := 2, xlen := 2, z0 := 0, zlen := 2 }]

/-! ### Theorems -/

/-! Helper step lemmas for evaluating and reasoning about the loop. -/

theorem runLoopAux_step (cfg : StopConfig) (ext : Ext)
    (body : Ext → LoopSt → Except SolveErr LoopSt) (fuel : Nat) (st st' : LoopSt)
    (hok : solverOk cfg ext st = true) (hb : body ext st = .ok st') :
    runLoopAux cfg ext body (fuel + 1) st = runLoopAux cfg ext body fuel st' := by
  simp [runLoopAux, hok, hb]

theorem runLoopAux_fail (cfg : StopConfig) (ext : Ext)
    (body : Ext → LoopSt → Except SolveErr LoopSt) (fuel : Nat) (st : LoopSt) (e : SolveErr)
    (hok : solverOk cfg ext st = true) (hb : body ext st = .error e) :
    runLoopAux cfg ext body (fuel + 1) st = (st, .failed e) := by
  simp [runLoopAux, hok, hb]

theorem runLoopAux_halt (cfg : StopConfig) (ext : Ext)
    (body : Ext → LoopSt → Except SolveErr LoopSt) (fuel : Nat) (st : LoopSt)
    (hok : solverOk cfg ext st = false) :
    runLoopAux cfg ext body (fuel + 1) st = (st, .normal) := by
  simp [runLoopAux, hok]

/-- C10: for every run, regardless of command-line configuration, the
simulation-time stop threshold is the fixed constant 50 time units and
the wall-clock stop threshold is the fixed constant 1800 seconds; of
the three stop thresholds only the iteration-count one is configurable,
set to the requested target plus one. -/
theorem stop_thresholds_fixed (nzArg nxArg aspectArg : Nat) (RayleighArg : ℚ) (niterArg : Nat) :
    (stopConfig nzArg nxArg aspectArg RayleighArg niterArg).stop_sim_time = 50 ∧
    (stopConfig nzArg nxArg aspectArg RayleighArg niterArg).stop_wall_time = 1800 ∧
    (stopConfig nzArg nxArg aspectArg RayleighArg niterArg).stop_iteration = niterArg + 1 :=
  ⟨rfl, by norm_num [stopConfig], rfl⟩

/-- C8: after the boundary-damping envelope, the generated initial field
value is exactly 0 at both boundary positions of the bounded wall-normal
dimension, for every seed/generator and every grid position in the other
dimension. -/
theorem init_field_zero_at_walls (gen : Nat → Nat → ℚ) (seed : Nat) (g : Shape2) (i j : Nat) :
    T_init gen seed g i j zb = 0 ∧ T_init gen seed g i j zt = 0 := by
  constructor <;> (unfold T_init pert zb zt F; ring)

/-- C1 (evaluation at the failing input): when the solver's advance
operation fails on the very first iteration, the loop does transition to
the failed state, but the finally block hits the never-assigned
`start_time` and itself raises NameError, so the statistics report is
not produced and NameError — not the original solver failure — is what
propagates to the caller. -/
theorem first_iteration_failure_skips_report :
    (runMainLoop cfgC1 extC1).2 = .failed .solverFail ∧
    (runMainLoop cfgC1 extC1).1.start_time = none ∧
    runScript 0 1 256 128 cfgC1 extC1 0 = .error (.fromFinally .nameErr) := by
  have hok : solverOk cfgC1 extC1 initSt = true := by
    simp only [solverOk, cfgC1, stopConfig, initSt, extC1, Bool.and_eq_true, decide_eq_true_eq]
    refine ⟨⟨by norm_num, by norm_num⟩, by norm_num⟩
  have hb : loopBody extC1 initSt = .error .solverFail := by
    simp [loopBody, extC1, initSt]
  have hmain : runMainLoop cfgC1 extC1 = (initSt, .failed .solverFail) := by
    have hfuel : cfgC1.stop_iteration + 1 = 101 + 1 := rfl
    rw [runMainLoop, hfuel, runLoopAux_fail cfgC1 extC1 loopBody 101 initSt .solverFail hok hb]
  refine ⟨by rw [hmain], by rw [hmain]; rfl, ?_⟩
  rw [runScript, hmain]
  rfl

/-- C2 (evaluation at the failing input): with a final iteration count
of 1 the reporter does not complete: `n_steps = 0` and the `average dt`
division raises ZeroDivisionError for every choice of the remaining
inputs, instead of marking per-iteration metrics unavailable. -/
theorem reporter_single_iteration_div_by_zero (ncpu nx nz : Nat) (t0 t1 t2 s : ℚ) :
    report ncpu nx nz t0 t1 t2 1 s = .error .zeroDivision := by
  norm_num [report, pydiv]

/-- C4: whenever the controller actually updates (not gated by cadence
or threshold), the returned step size lies within
`[min_change * prev, max_change * prev]`, and on every iteration the
returned step size is at most the configured absolute maximum `max_dt`,
provided the previous step size was nonnegative and itself at most
`max_dt`. -/
theorem cfl_rate_limit_bounds (iteration : Nat) (s prev : ℚ)
    (h0 : 0 ≤ prev) (hp : prev ≤ max_dt) :
    compute_dt iteration s prev ≤ max_dt ∧
    (cflUpdates iteration s prev →
      min_change * prev ≤ compute_dt iteration s prev ∧
      compute_dt iteration s prev ≤ max_change * prev) := by
  have hp2 : prev ≤ 1/2 := hp
  have hc : 0 ≤ clip 0 max_dt (raw_dt s) ∧ clip 0 max_dt (raw_dt s) ≤ 1/2 := by
    unfold clip max_dt
    split_ifs with h1 h2 <;> constructor <;> linarith
  have hRL : min_change * prev ≤ rateLimited s prev ∧
      rateLimited s prev ≤ max_change * prev ∧ rateLimited s prev ≤ max_dt := by
    obtain ⟨hc1, hc2⟩ := hc
    unfold rateLimited
    generalize hcg : clip 0 max_dt (raw_dt s) = cval at hc1 hc2 ⊢
    unfold clip min_change max_change max_dt
    split_ifs with h1 h2 <;> refine ⟨?_, ?_, ?_⟩ <;> linarith
  unfold compute_dt
  split_ifs with hcad hgate
  · refine ⟨hp, fun hu => ?_⟩
    obtain ⟨_, hu2⟩ := hu
    rw [hu2] at hgate
    cases hgate
  · exact ⟨hRL.2.2, fun _ => ⟨hRL.1, hRL.2.1⟩⟩
  · refine ⟨hp, fun hu => ?_⟩
    obtain ⟨hu1, _⟩ := hu
    exact absurd hu1 hcad

/-- Witness for C4 at a concrete input. -/
theorem cfl_rate_limit_bounds_witness :
    (0:ℚ) ≤ 1/1000 ∧ (1/1000:ℚ) ≤ max_dt ∧
    (compute_dt 0 1 (1/1000) ≤ max_dt ∧
      (cflUpdates 0 1 (1/1000) →
        min_change * (1/1000) ≤ compute_dt 0 1 (1/1000) ∧
        compute_dt 0 1 (1/1000) ≤ max_change * (1/1000))) :=
  ⟨by norm_num, by norm_num [max_dt],
    cfl_rate_limit_bounds 0 1 (1/1000) (by norm_num) (by norm_num [max_dt])⟩

/-- Assembling the field from a covering partition reads exactly the
globally generated value at every in-range global index. -/
theorem assemble_of_covers (gen : Nat → Nat → ℚ) (seed : Nat) (g : Shape2)
    (P : List Slice2) (i j : Nat) (hP : covers P g) (hi : i < g.nx) (hj : j < g.nz) :
    assemble gen seed g P i j = standard_normal gen seed g i j := by
  obtain ⟨sl, hmem, hsl⟩ := hP i hi j hj
  have hsome : (P.find? (fun t => inSlice t i j)).isSome = true := by
    rw [List.find?_isSome]
    exact ⟨sl, hmem, hsl⟩
  obtain ⟨t, ht⟩ := Option.isSome_iff_exists.mp hsome
  have htin : inSlice t i j = true := by
    have h5 := List.find?_some ht
    simpa using h5
  have hb : t.x0 ≤ i ∧ i < t.x0 + t.xlen ∧ t.z0 ≤ j ∧ j < t.z0 + t.zlen := by
    simpa [inSlice, Bool.and_eq_true, decide_eq_true_eq, and_assoc] using htin
  obtain ⟨hb1, hb2, hb3, hb4⟩ := hb
  simp only [assemble, ht]
  unfold noiseLocal
  have hxi : t.x0 + (i - t.x0) = i := by omega
  have hzj : t.z0 + (j - t.z0) = j := by omega
  rw [hxi, hzj]

/-- C3: local random values are the global array sliced, so the
assembled global field is independent of the partitioning; under any
two valid partitionings (including the single-worker one) the value at
every in-range global index equals the canonically generated global
value. -/
theorem noise_partition_invariant (gen : Nat → Nat → ℚ) (seed : Nat) (g : Shape2)
    (P₁ P₂ : List Slice2) (i j : Nat)
    (h1 : covers P₁ g) (h2 : covers P₂ g) (hi : i < g.nx) (hj : j < g.nz) :
    assemble gen seed g P₁ i j = standard_normal gen seed g i j ∧
    assemble gen seed g P₁ i j = assemble gen seed g P₂ i j := by
  have e1 := assemble_of_covers gen seed g P₁ i j h1 hi hj
  have e2 := assemble_of_covers gen seed g P₂ i j h2 hi hj
  exact ⟨e1, by rw [e1, e2]⟩

/-- Witness for C3: a 4×2 grid, the single-worker partition versus a
two-worker split. -/
theorem noise_partition_invariant_witness :
    covers P1W gW ∧ covers P2W gW ∧ 3 < gW.nx ∧ 1 < gW.nz ∧
    (assemble genW 42 gW P1W 3 1 = standard_normal genW 42 gW 3 1 ∧
      assemble genW 42 gW P1W 3 1 = assemble genW 42 gW P2W 3 1) :=
  ⟨by decide, by decide, by decide, by decide,
    noise_partition_invariant genW 42 gW P1W P2W 3 1 (by decide) (by decide)
      (by decide) (by decide)⟩

/-- C9 counterexample: the script's scale-1/4 round trip does not
preserve field data in general — a field with energy in a truncated
coefficient comes back changed. -/
theorem scale_roundtrip_cex :
    roundTrip 1 [0, 0, 0, (1:ℚ)] ≠ [0, 0, 0, (1:ℚ)] := by decide

/-- C9 (amended): the round trip preserves the field exactly when no
data lies beyond the coarser resolution — when the intermediate length
is at least the original one, or all truncated coefficients are zero.
The script's scale-1/4 trip deliberately violates this to act as a
low-pass filter. -/
theorem scale_roundtrip_preserves (m : Nat) (c : List ℚ)
    (h : c.length ≤ m ∨ ∀ q ∈ c.drop m, q = 0) :
    roundTrip m c = c := by
  rcases Nat.lt_or_ge c.length m with hm | hm
  · -- upscale: padding with zeros, then truncating back to the original
    have hinner : setScaleCoeffs m c = c ++ List.replicate (m - c.length) 0 := by
      unfold setScaleCoeffs
      rw [if_neg (by omega)]
    unfold roundTrip
    rw [hinner]
    unfold setScaleCoeffs
    rw [if_pos (by simp)]
    exact List.take_left c _
  · -- downscale (or unchanged): truncation, then zero-padding back
    have hinner : setScaleCoeffs m c = c.take m := by
      unfold setScaleCoeffs
      rw [if_pos hm]
    have hlen : (c.take m).length = m := by
      simp [List.length_take]
      omega
    unfold roundTrip
    rw [hinner]
    unfold setScaleCoeffs
    rcases Nat.eq_or_lt_of_le hm with heq | hlt
    · subst heq
      rw [if_pos (by rw [hlen]), List.take_length, List.take_length]
    · have htail : ∀ q ∈ c.drop m, q = 0 := by
        rcases h with h | h
        · omega
        · exact h
      rw [if_neg (by rw [hlen]; omega), hlen]
      have hdrop : c.drop m = List.replicate (c.length - m) 0 :=
        List.eq_replicate_iff.mpr ⟨by rw [List.length_drop], htail⟩
      calc c.take m ++ List.replicate (c.length - m) 0
          = c.take m ++ c.drop m := by rw [hdrop]
        _ = c := List.take_append_drop m c

/-- Witness for C9 (amended) at a concrete input whose truncated tail is
zero. -/
theorem scale_roundtrip_preserves_witness :
    roundTrip 2 [(1:ℚ), 1, 0, 0] = [(1:ℚ), 1, 0, 0] :=
  scale_roundtrip_preserves 2 [(1:ℚ), 1, 0, 0] (Or.inr (by decide))

/-- C7 counterexample: with main-loop duration 10 and final iteration
count 11, the printed `loop sec/iter` field is 10/11, not the claimed
main-loop duration over (iteration count − 1) = 10/10. -/
theorem loop_sec_iter_denominator_cex :
    (report 1 64 32 0 2 12 11 5).map Report.loop_sec_iter = .ok (10/11) ∧
    ((10:ℚ)/11) ≠ (12 - 2) / ((11:ℚ) - 1) := by
  constructor
  · norm_num [report, pydiv, Except.map]
  · norm_num

/-- C7 (amended): whenever no division fails, the reporter succeeds and
its `loop sec/iter` field equals the main-loop duration divided by the
full final iteration count (warm-up iteration included in the
denominator), while the scaling line's per-iteration field divides by
(final iteration count − 1). -/
theorem reporter_per_iter_fields (ncpu nx nz : Nat) (t0 t1 t2 : ℚ)
    (iteration : Nat) (s : ℚ)
    (h1 : (iteration : ℚ) ≠ 0) (h2 : (((iteration : ℤ) - 1 : ℤ) : ℚ) ≠ 0)
    (h3 : ((nx * nz : ℕ) : ℚ) ≠ 0) :
    report ncpu nx nz t0 t1 t2 iteration s =
      .ok { startup_time := t1 - t0
            main_loop_time := t2 - t1
            total_time := t2 - t0
            iterations := iteration
            loop_sec_iter := (t2 - t1) / (iteration : ℚ)
            average_dt := s / (((iteration : ℤ) - 1 : ℤ) : ℚ)
            n_total_cpu := ncpu
            sc_nx := nx
            sc_nz := nz
            sc_startup := t1 - t0
            sc_main := t2 - t1
            sc_per_iter := (t2 - t1) / (((iteration : ℤ) - 1 : ℤ) : ℚ)
            sc_per_iter_grid := (t2 - t1) / (((iteration : ℤ) - 1 : ℤ) : ℚ) / ((nx * nz : ℕ) : ℚ)
            sc_cost := (ncpu : ℚ) * (t2 - t1) / (((iteration : ℤ) - 1 : ℤ) : ℚ) / ((nx * nz : ℕ) : ℚ) } := by
  have h2q : ((iteration : ℚ) - 1) ≠ 0 := by push_cast at h2; exact h2
  have hnxz : ¬(nx = 0 ∨ nz = 0) := by
    intro hcase
    apply h3
    rcases hcase with h | h <;> simp [h]
  simp [report, pydiv, h1, h2q, hnxz]

/-- Witness for C7 (amended) at a concrete input. -/
theorem reporter_per_iter_fields_witness :
    report 1 64 32 0 2 12 11 5 =
      .ok { startup_time := 2 - 0
            main_loop_time := 12 - 2
            total_time := 12 - 0
            iterations := 11
            loop_sec_iter := (12 - 2) / ((11 : ℕ) : ℚ)
            average_dt := 5 / (((11 : ℤ) - 1 : ℤ) : ℚ)
            n_total_cpu := 1
            sc_nx := 64
            sc_nz := 32
            sc_startup := 2 - 0
            sc_main := 12 - 2
            sc_per_iter := (12 - 2) / (((11 : ℤ) - 1 : ℤ) : ℚ)
            sc_per_iter_grid := (12 - 2) / (((11 : ℤ) - 1 : ℤ) : ℚ) / ((64 * 32 : ℕ) : ℚ)
            sc_cost := (1 : ℚ) * (12 - 2) / (((11 : ℤ) - 1 : ℤ) : ℚ) / ((64 * 32 : ℕ) : ℚ) } :=
  reporter_per_iter_fields 1 64 32 0 2 12 11 5 (by norm_num) (by norm_num) (by norm_num)

/-- C6 (amended): each iteration passes the controller-requested step
size to the solver's advance operation and uses the step size returned
by the solver for the recorded simulation time and the per-iteration
log record; however, the controller's stored previous step size — the
input of its next rate-limit computation — is the requested value, not
the returned one (`CFL.compute_dt()` is invoked without the returned
value). -/
theorem loop_bookkeeping_vs_controller_feedback (ext : Ext) (st stNext : LoopSt)
    (h : loopBody ext st = .ok stNext) :
    ∃ s act, ext.speedMax st.iteration = .ok s ∧
      ext.stepActual st.iteration (compute_dt st.iteration s st.cfl_prev) = .ok act ∧
      stNext.iteration = st.iteration + 1 ∧
      stNext.sim_time = st.sim_time + act ∧
      stNext.log = st.log ++ [(st.iteration + 1, st.sim_time + act, act)] ∧
      stNext.cfl_prev = compute_dt st.iteration s st.cfl_prev := by
  unfold loopBody at h
  cases hs : ext.speedMax st.iteration with
  | error e => simp [hs] at h
  | ok s =>
    simp only [hs] at h
    cases ha : ext.stepActual st.iteration (compute_dt st.iteration s st.cfl_prev) with
    | error e => simp [ha] at h
    | ok act =>
      simp only [ha, Except.ok.injEq] at h
      subst h
      exact ⟨s, act, rfl, ha, rfl, rfl, rfl, rfl⟩

/-- Witness for C6 (amended): the first iteration of the halving-solver
run. -/
theorem loop_bookkeeping_vs_controller_feedback_witness :
    ∃ s act, ext6.speedMax initSt.iteration = .ok s ∧
      ext6.stepActual initSt.iteration (compute_dt initSt.iteration s initSt.cfl_prev) = .ok act ∧
      (advance ext6 initSt (compute_dt 0 1 initial_dt) (compute_dt 0 1 initial_dt / 2)).iteration
        = initSt.iteration + 1 ∧
      (advance ext6 initSt (compute_dt 0 1 initial_dt) (compute_dt 0 1 initial_dt / 2)).sim_time
        = initSt.sim_time + act ∧
      (advance ext6 initSt (compute_dt 0 1 initial_dt) (compute_dt 0 1 initial_dt / 2)).log
        = initSt.log ++ [(initSt.iteration + 1, initSt.sim_time + act, act)] ∧
      (advance ext6 initSt (compute_dt 0 1 initial_dt) (compute_dt 0 1 initial_dt / 2)).cfl_prev
        = compute_dt initSt.iteration s initSt.cfl_prev :=
  loop_bookkeeping_vs_controller_feedback ext6 initSt
    (advance ext6 initSt (compute_dt 0 1 initial_dt) (compute_dt 0 1 initial_dt / 2)) (by rfl)

/-- C6 counterexample: with a solver that halves every requested step
size, the loop as written diverges from the loop that feeds the
solver-returned step size back into the controller — already their
second iterations use different step sizes, so the claim that the
returned value is what feeds the controller's next computation is false. -/
theorem controller_feedback_cex : runMainLoop cfg6 ext6 ≠ runMainLoopSpecFB cfg6 ext6 := by
  have hq1 : compute_dt 0 1 (1/1000) = 3/2000 := by
    norm_num [compute_dt, thresholdGated, rateLimited, clip, raw_dt, cadence,
      threshold, safety, max_dt, min_change, max_change]
  have hq2A : compute_dt 1 1 (3/2000) = 9/4000 := by
    norm_num [compute_dt, thresholdGated, rateLimited, clip, raw_dt, cadence,
      threshold, safety, max_dt, min_change, max_change]
  have hq2B : compute_dt 1 1 (3/4000) = 9/8000 := by
    norm_num [compute_dt, thresholdGated, rateLimited, clip, raw_dt, cadence,
      threshold, safety, max_dt, min_change, max_change]
  have hok0 : solverOk cfg6 ext6 initSt = true := by
    simp only [solverOk, cfg6, stopConfig, initSt, ext6, Bool.and_eq_true, decide_eq_true_eq]
    refine ⟨⟨by norm_num, by norm_num⟩, by norm_num⟩
  -- the loop as written
  have hb1A : loopBody ext6 initSt = .ok (advance ext6 initSt (3/2000) (3/4000)) := by
    norm_num [loopBody, ext6, initSt, initial_dt, hq1]
  have hok1A : solverOk cfg6 ext6 (advance ext6 initSt (3/2000) (3/4000)) = true := by
    simp only [solverOk, cfg6, stopConfig, initSt, ext6, advance, Bool.and_eq_true,
      decide_eq_true_eq]
    refine ⟨⟨by norm_num, by norm_num⟩, by norm_num⟩
  have hb2A : loopBody ext6 (advance ext6 initSt (3/2000) (3/4000)) =
      .ok (advance ext6 (advance ext6 initSt (3/2000) (3/4000)) (9/4000) (9/8000)) := by
    norm_num [loopBody, ext6, advance, initSt, hq2A]
  have hok2A : solverOk cfg6 ext6
      (advance ext6 (advance ext6 initSt (3/2000) (3/4000)) (9/4000) (9/8000)) = false := by
    norm_num [solverOk, cfg6, stopConfig, advance, initSt]
  have hA : runMainLoop cfg6 ext6 =
      (advance ext6 (advance ext6 initSt (3/2000) (3/4000)) (9/4000) (9/8000), .normal) := by
    have hfuel : cfg6.stop_iteration + 1 = 2 + 1 := rfl
    rw [runMainLoop, hfuel,
      runLoopAux_step cfg6 ext6 loopBody 2 initSt _ hok0 hb1A,
      runLoopAux_step cfg6 ext6 loopBody 1 _ _ hok1A hb2A,
      runLoopAux_halt cfg6 ext6 loopBody 0 _ hok2A]
  -- the loop under the spec-worded feedback contract
  have hb1B : loopBodySpecFB ext6 initSt = .ok (advance ext6 initSt (3/4000) (3/4000)) := by
    norm_num [loopBodySpecFB, ext6, initSt, initial_dt, hq1]
  have hok1B : solverOk cfg6 ext6 (advance ext6 initSt (3/4000) (3/4000)) = true := by
    simp only [solverOk, cfg6, stopConfig, initSt, ext6, advance, Bool.and_eq_true,
      decide_eq_true_eq]
    refine ⟨⟨by norm_num, by norm_num⟩, by norm_num⟩
  have hb2B : loopBodySpecFB ext6 (advance ext6 initSt (3/4000) (3/4000)) =
      .ok (advance ext6 (advance ext6 initSt (3/4000) (3/4000)) (9/16000) (9/16000)) := by
    norm_num [loopBodySpecFB, ext6, advance, initSt, hq2B]
  have hok2B : solverOk cfg6 ext6
      (advance ext6 (advance ext6 initSt (3/4000) (3/4000)) (9/16000) (9/16000)) = false := by
    norm_num [solverOk, cfg6, stopConfig, advance, initSt]
  have hB : runMainLoopSpecFB cfg6 ext6 =
      (advance ext6 (advance ext6 initSt (3/4000) (3/4000)) (9/16000) (9/16000), .normal) := by
    have hfuel : cfg6.stop_iteration + 1 = 2 + 1 := rfl
    rw [runMainLoopSpecFB, hfuel,
      runLoopAux_step cfg6 ext6 loopBodySpecFB 2 initSt _ hok0 hb1B,
      runLoopAux_step cfg6 ext6 loopBodySpecFB 1 _ _ hok1B hb2B,
      runLoopAux_halt cfg6 ext6 loopBodySpecFB 0 _ hok2B]
  intro hcontra
  rw [hA, hB] at hcontra
  have hprev := congrArg (fun p => p.1.cfl_prev) hcontra
  simp only [advance] at hprev
  norm_num at hprev

/-- Helper for C5: under error-free external behavior with per-step
sizes bounded so the simulation-time and wall-clock thresholds never
trigger, the loop runs to the iteration threshold exactly, one logged
record per iteration, and stops normally. -/
theorem runLoopAux_counts (cfg : StopConfig) (ext : Ext) (B : ℚ) (hB : 0 ≤ B)
    (hstop : (cfg.stop_iteration : ℚ) * B < cfg.stop_sim_time)
    (hs : ∀ k, ∃ s, ext.speedMax k = .ok s)
    (ha : ∀ k q, ∃ d, ext.stepActual k q = .ok d ∧ 0 ≤ d ∧ d ≤ B)
    (hw : ∀ k, ext.wall k < cfg.stop_wall_time) :
    ∀ fuel st, cfg.stop_iteration - st.iteration < fuel →
      st.iteration ≤ cfg.stop_iteration →
      st.sim_time ≤ (st.iteration : ℚ) * B →
      (runLoopAux cfg ext loopBody fuel st).2 = .normal ∧
      (runLoopAux cfg ext loopBody fuel st).1.iteration = cfg.stop_iteration ∧
      (runLoopAux cfg ext loopBody fuel st).1.log.length =
        st.log.length + (cfg.stop_iteration - st.iteration) := by
  intro fuel
  induction fuel with
  | zero => intro st hf _ _; omega
  | succ n ih =>
    intro st hf hit hsim
    rcases Nat.lt_or_ge st.iteration cfg.stop_iteration with hlt | hge
    · have hsimlt : st.sim_time < cfg.stop_sim_time := by
        have hmono : (st.iteration : ℚ) * B ≤ (cfg.stop_iteration : ℚ) * B := by
          apply mul_le_mul_of_nonneg_right _ hB
          exact_mod_cast Nat.le_of_lt hlt
        linarith
      have hok : solverOk cfg ext st = true := by
        simp only [solverOk, Bool.and_eq_true, decide_eq_true_eq]
        exact ⟨⟨hlt, hsimlt⟩, hw st.iteration⟩
      obtain ⟨s, hs1⟩ := hs st.iteration
      obtain ⟨d, ha1, hd0, hdB⟩ := ha st.iteration (compute_dt st.iteration s st.cfl_prev)
      have hb : loopBody ext st = .ok (advance ext st (compute_dt st.iteration s st.cfl_prev) d) := by
        simp [loopBody, hs1, ha1]
      rw [runLoopAux_step cfg ext loopBody n st _ hok hb]
      have hlog : (advance ext st (compute_dt st.iteration s st.cfl_prev) d).log.length =
          st.log.length + 1 := by
        simp [advance]
      have hnext := ih (advance ext st (compute_dt st.iteration s st.cfl_prev) d)
        (by simp only [advance]; omega)
        (by simp only [advance]; omega)
        (by
          show st.sim_time + d ≤ ((st.iteration + 1 : ℕ) : ℚ) * B
          push_cast
          ring_nf
          ring_nf at hsim
          linarith)
      refine ⟨hnext.1, hnext.2.1, ?_⟩
      rw [hnext.2.2, hlog]
      have : (advance ext st (compute_dt st.iteration s st.cfl_prev) d).iteration =
          st.iteration + 1 := rfl
      rw [this]
      omega
    · have hnotlt : ¬ st.iteration < cfg.stop_iteration := by omega
      have hok : solverOk cfg ext st = false := by
        simp [solverOk, hnotlt]
      rw [runLoopAux_halt cfg ext loopBody n st hok]
      refine ⟨rfl, ?_, ?_⟩
      · show st.iteration = cfg.stop_iteration
        omega
      · show st.log.length = st.log.length + (cfg.stop_iteration - st.iteration)
        omega

/-- C5: with a configured target iteration count `niter`, the stop
threshold is `niter + 1` and — provided the solver never fails and the
step sizes and wall clock stay below the other two thresholds — the
loop performs exactly `niter + 1` iterations (the target plus the
warm-up), stopping normally right after, never before and never after. -/
theorem loop_exact_iteration_count (nzArg nxArg aspectArg : Nat) (RayleighArg : ℚ)
    (niter : Nat) (ext : Ext) (B : ℚ) (hB : 0 ≤ B)
    (hstop : ((niter + 1 : ℕ) : ℚ) * B < 50)
    (hs : ∀ k, ∃ s, ext.speedMax k = .ok s)
    (ha : ∀ k q, ∃ d, ext.stepActual k q = .ok d ∧ 0 ≤ d ∧ d ≤ B)
    (hw : ∀ k, ext.wall k < 1800) :
    (runMainLoop (stopConfig nzArg nxArg aspectArg RayleighArg niter) ext).2 = .normal ∧
    (runMainLoop (stopConfig nzArg nxArg aspectArg RayleighArg niter) ext).1.iteration = niter + 1 ∧
    (runMainLoop (stopConfig nzArg nxArg aspectArg RayleighArg niter) ext).1.log.length = niter + 1 := by
  have h := runLoopAux_counts (stopConfig nzArg nxArg aspectArg RayleighArg niter) ext B hB
    (by simpa [stopConfig] using hstop) hs ha
    (by
      intro k
      show ext.wall k < (stopConfig nzArg nxArg aspectArg RayleighArg niter).stop_wall_time
      norm_num [stopConfig]
      exact hw k)
    (niter + 2) initSt
    (by simp [stopConfig, initSt])
    (by simp [stopConfig, initSt])
    (by simp [initSt])
  have hfuel : (stopConfig nzArg nxArg aspectArg RayleighArg niter).stop_iteration + 1 = niter + 2 := rfl
  rw [runMainLoop, hfuel]
  simpa [stopConfig, initSt] using h

/-- Witness for C5: target 2, so 3 iterations exactly. -/
theorem loop_exact_iteration_count_witness :
    (runMainLoop (stopConfig 128 256 2 1000000 2) extW).2 = .normal ∧
    (runMainLoop (stopConfig 128 256 2 1000000 2) extW).1.iteration = 3 ∧
    (runMainLoop (stopConfig 128 256 2 1000000 2) extW).1.log.length = 3 :=
  loop_exact_iteration_count 128 256 2 1000000 2 extW (1/100) (by norm_num) (by norm_num)
    (fun _ => ⟨1, rfl⟩) (fun _ _ => ⟨1/100, rfl, by norm_num, le_refl _⟩)
    (fun _ => by norm_num [extW])

end RB
